import Mathlib

/-!
Verification of the snowmerak/ticketing core against its specification.

The Go sources are shallowly embedded: Redis key/value state becomes explicit
record state (association lists for keyed JSON blobs, lists of pairs for set
indices, `Option Int` for the available-tickets counter key), Lua scripts
become pure functions on that state, and every repository or service method
under scrutiny becomes a pure state-passing function returning an
`Except`-style result together with the post state.  Wall-clock time is an
explicit `now : Nat` parameter (epoch seconds); `time.Now().After(e)` is
`now > e`.  Random UUIDs are irrelevant to every claim and are either dropped
or passed in as explicit fresh identifiers.
-/

set_option autoImplicit false

namespace Ticketing

/-! ## Domain model (lib/domain) -/

/-- Seat status: "available", "reserved", "sold" (lib/domain/seat.go). -/
inductive SeatStatus where
  | available
  | reserved
  | sold
deriving DecidableEq

/-- Ticket status: "reserved", "confirmed", "cancelled" (lib/domain/ticket.go). -/
inductive TicketStatus where
  | reserved
  | confirmed
  | cancelled
deriving DecidableEq

/-- Queue entry status: "waiting", "active", "expired", "completed"
(lib/domain/queue.go). -/
inductive QueueStatus where
  | waiting
  | active
  | expired
  | completed
deriving DecidableEq

/-- Event status: "active", "inactive", "sold_out" (lib/domain/event.go). -/
inductive EventStatus where
  | active
  | inactive
  | soldOut
deriving DecidableEq

/-- domain.Seat, restricted to the fields the verified operations read or
write (section/row/number and the timestamps are carried opaquely by the code
and never branched on). -/
structure Seat where
  id : Nat
  eventId : Nat
  price : Int
  status : SeatStatus
deriving DecidableEq

/-- domain.Ticket, restricted to the fields the verified operations read or
write.  `expiresAt` is epoch seconds; `none` models a nil `*time.Time`. -/
structure Ticket where
  id : Nat
  eventId : Nat
  seatId : Option Nat
  userId : Nat
  price : Int
  status : TicketStatus
  expiresAt : Option Nat
deriving DecidableEq

/-- domain.QueueEntry, restricted to the fields the verified operations read
or write.  The per-event embedding keys entries by `userId`, matching the
Redis key `queue_entry:{eventId}:{userId}`. -/
structure QueueEntry where
  userId : Nat
  position : Nat
  status : QueueStatus
  sessionId : String
  expiresAt : Option Nat
deriving DecidableEq

/-- domain.Event, restricted to the fields `purchaseStandingTicket` reads. -/
structure Event where
  id : Nat
  status : EventStatus
  availableTickets : Int
  totalTickets : Int
  isSeatedEvent : Bool
deriving DecidableEq

/-- `Ticket.IsExpired`: nil expiry is never expired; otherwise
`time.Now().After(*t.ExpiresAt)`. -/
def ticketIsExpired (t : Ticket) (now : Nat) : Bool :=
  match t.expiresAt with
  | none => false
  | some e => now > e

/-- ActiveTTL / ReservationTTL: 15 minutes, in seconds. -/
def activeTTL : Nat := 15 * 60

/-! ## Generic keyed-store helpers

A Redis keyspace fragment is a `List β` of records together with a key
function (for JSON blobs stored under `prefix:{id}`), or a `List (α × β)`
association list (for hash/derived bindings).  `SET` on an existing key is a
pointwise replacement; `GET` is `find?`. -/

/-- `GET`: first record whose key matches. -/
def findBy {β : Type} (key : β → Nat) (l : List β) (k : Nat) : Option β :=
  l.find? (fun x => key x == k)

/-- `SET` on an existing key: replace every record carrying this key.
(Redis holds at most one value per key; on lists with duplicate keys this
replaces all of them, which is the correct image of that state.) -/
def setBy {β : Type} (key : β → Nat) (l : List β) (v : β) : List β :=
  l.map (fun x => if key x == key v then v else x)

/-- `GET` on an association list. -/
def lookupKV {α β : Type} [BEq α] (l : List (α × β)) (k : α) : Option β :=
  (l.find? (fun p => p.1 == k)).map (fun p => p.2)

/-- `SET` on an association list: replace if the key is bound, append
otherwise. -/
def setKV {α β : Type} [BEq α] (l : List (α × β)) (k : α) (v : β) : List (α × β) :=
  if (l.find? (fun p => p.1 == k)).isSome then
    l.map (fun p => if p.1 == k then (k, v) else p)
  else
    l ++ [(k, v)]

/-! ## Inventory counter (EventRepository, rueidis implementation)

The counter lives under the single key `event:{eventId}:available_tickets`,
modelled as `Option Int` (`none` = key absent). -/

/-- Result of `DecrementAvailableTickets` after the Go wrapper maps the
script return codes `-1`/`-2` to errors. -/
inductive DecResult where
  | notFound
  | insufficientInventory
  | ok (newCount : Int)
deriving DecidableEq

/-- The Lua script of `EventRepository.DecrementAvailableTickets`: returns
`-1` if the key is absent, `-2` if `current < decrementBy`, otherwise writes
and returns the new value.  Paired with the post-state of the counter key. -/
def decrementLua (counter : Option Int) (n : Int) : Int × Option Int :=
  match counter with
  | none => (-1, none)
  | some c => if c < n then (-2, some c) else (c - n, some (c - n))

/-- `EventRepository.DecrementAvailableTickets`: runs the script and maps
return code `-1` to "event not found" and `-2` to "insufficient tickets
available". -/
def decrementAvailableTickets (counter : Option Int) (n : Int) :
    DecResult × Option Int :=
  let r := decrementLua counter n
  if r.1 = -1 then (DecResult.notFound, r.2)
  else if r.1 = -2 then (DecResult.insufficientInventory, r.2)
  else (DecResult.ok r.1, r.2)

/-- The Lua script of `EventRepository.IncrementAvailableTickets`: `-1` if
the key is absent, otherwise writes and returns `current + incrementBy`. -/
def incrementLua (counter : Option Int) (n : Int) : Int × Option Int :=
  match counter with
  | none => (-1, none)
  | some c => (c + n, some (c + n))

/-! ## Seat store (SeatRepository, src/unnamed/part_003)

`seats` is the keyspace `seat:{seatId}`; `avail` is the set family
`available_seats:{eventId}`, flattened to (eventId, seatId) membership
pairs. -/

/-- The seat keyspace together with the available-seats index. -/
structure SeatState where
  seats : List Seat
  avail : List (Nat × Nat)
deriving DecidableEq

/-- `GET seat:{sid}`. -/
def findSeat (seats : List Seat) (sid : Nat) : Option Seat :=
  findBy Seat.id seats sid

/-- `SET seat:{s.id}`. -/
def setSeat (seats : List Seat) (s : Seat) : List Seat :=
  setBy Seat.id seats s

/-- `SREM available_seats:{e} sid`. -/
def removeAvail (avail : List (Nat × Nat)) (e sid : Nat) : List (Nat × Nat) :=
  avail.filter (fun p => !(p.1 == e && p.2 == sid))

/-- `SADD available_seats:{e} sid`. -/
def addAvail (avail : List (Nat × Nat)) (e sid : Nat) : List (Nat × Nat) :=
  if (e, sid) ∈ avail then avail else avail ++ [(e, sid)]

/-- Error outcomes of the `ReserveSeats` Lua script. -/
inductive ReserveErr where
  | seatNotFound
  | seatNotAvailable
deriving DecidableEq

/-- First loop of the `ReserveSeats` Lua script: read every seat from the
(unmodified) store in the given key order; a missing seat aborts with
`seat_not_found`, a seat whose status is not "available" aborts with
`seat_not_available`; otherwise collect the updated records. -/
def reserveValidate (seats : List Seat) : List Nat → Except ReserveErr (List Seat)
  | [] => Except.ok []
  | sid :: rest =>
    match findSeat seats sid with
    | none => Except.error ReserveErr.seatNotFound
    | some s =>
      if s.status = SeatStatus.available then
        match reserveValidate seats rest with
        | Except.error e => Except.error e
        | Except.ok l => Except.ok ({ s with status := SeatStatus.reserved } :: l)
      else Except.error ReserveErr.seatNotAvailable

/-- Second loop of the `ReserveSeats` Lua script: `SET` each updated seat and
`SREM` it from its event's available index. -/
def applyReserveWrites : SeatState → List Seat → SeatState
  | st, [] => st
  | st, s :: rest =>
      applyReserveWrites
        { seats := setSeat st.seats s, avail := removeAvail st.avail s.eventId s.id } rest

/-- `SeatRepository.ReserveSeats`: the whole script is atomic, and no write
happens unless every seat validates. -/
def reserveSeats (st : SeatState) (ids : List Nat) : Except ReserveErr Unit × SeatState :=
  match reserveValidate st.seats ids with
  | Except.error e => (Except.error e, st)
  | Except.ok l => (Except.ok (), applyReserveWrites st l)

/-- The reserved image of the seat found under `sid`, if any (proof-side
description of what the script writes for one key). -/
def reservedAt (seats : List Seat) (sid : Nat) : Option Seat :=
  (findSeat seats sid).map (fun s => { s with status := SeatStatus.reserved })

/-- The list of records the validation loop collects when every key
validates. -/
def reservedList (seats : List Seat) (ids : List Nat) : List Seat :=
  ids.filterMap (reservedAt seats)

/-- Error outcomes of the `ReleaseSeats` Lua script. -/
inductive ReleaseErr where
  | seatNotFound
  | seatNotReserved
deriving DecidableEq

/-- First loop of the `ReleaseSeats` Lua script: every seat must exist and be
"reserved". -/
def releaseValidate (seats : List Seat) : List Nat → Except ReleaseErr (List Seat)
  | [] => Except.ok []
  | sid :: rest =>
    match findSeat seats sid with
    | none => Except.error ReleaseErr.seatNotFound
    | some s =>
      if s.status = SeatStatus.reserved then
        match releaseValidate seats rest with
        | Except.error e => Except.error e
        | Except.ok l => Except.ok ({ s with status := SeatStatus.available } :: l)
      else Except.error ReleaseErr.seatNotReserved

/-- Second loop of the `ReleaseSeats` Lua script: `SET` each updated seat and
`SADD` it back to its event's available index. -/
def applyReleaseWrites : SeatState → List Seat → SeatState
  | st, [] => st
  | st, s :: rest =>
      applyReleaseWrites
        { seats := setSeat st.seats s, avail := addAvail st.avail s.eventId s.id } rest

/-- `SeatRepository.ReleaseSeats`. -/
def releaseSeats (st : SeatState) (ids : List Nat) : Except ReleaseErr Unit × SeatState :=
  match releaseValidate st.seats ids with
  | Except.error e => (Except.error e, st)
  | Except.ok l => (Except.ok (), applyReleaseWrites st l)

/-- `SeatRepository.UpdateStatus`: load the seat, adjust the available-seats
index according to the old/new status pair, store the seat with the new
status.  The error case is a failed `GET`. -/
def updateSeatStatus (sst : SeatState) (sid : Nat) (status : SeatStatus) :
    Except Unit SeatState :=
  match findSeat sst.seats sid with
  | none => Except.error ()
  | some s =>
    let avail' :=
      if s.status = SeatStatus.available ∧ status ≠ SeatStatus.available then
        removeAvail sst.avail s.eventId sid
      else if s.status ≠ SeatStatus.available ∧ status = SeatStatus.available then
        addAvail sst.avail s.eventId sid
      else sst.avail
    Except.ok { seats := setSeat sst.seats { s with status := status }, avail := avail' }

/-! ## Admission queue (QueueRepository, src/pkg/repository/redis/queue.go,
and QueueService, src/internal/service/queue.go)

State for a single event: the Redis list `queue:{eventId}` of userIds, the
keyspace `queue_entry:{eventId}:{userId}` keyed by userId, and the
`session:{sessionId}` hash field `queue_entry`, which binds a sessionId to an
entry key (here: to the userId the entry key embeds). -/

/-- The per-event queue keyspace fragment. -/
structure QueueState where
  queue : List Nat
  entries : List (Nat × QueueEntry)
  sessions : List (String × Nat)
deriving DecidableEq

/-- `QueueRepository.GetPosition`: `GET queue_entry:{eventId}:{userId}`. -/
def lookupEntry (st : QueueState) (userId : Nat) : Option QueueEntry :=
  lookupKV st.entries userId

/-- Session-hash lookup used by `GetBySessionID` and `RefreshSession`. -/
def lookupSession (st : QueueState) (sessionId : String) : Option Nat :=
  lookupKV st.sessions sessionId

/-- `QueueRepository.Join`: if the user already has an entry record (of any
status), return it unchanged; otherwise read the list length `L`, build an
entry with `position = L + 1` — Active with a 15-minute expiry when `L = 0`,
Waiting with no expiry otherwise — then `RPUSH` the userId, `SET` the entry,
and bind the session.  (The entry's random UUID is not modelled; `EnteredAt`
and the audit timestamps are never branched on.) -/
def join (st : QueueState) (userId : Nat) (sessionId : String) (now : Nat) :
    QueueEntry × QueueState :=
  match lookupEntry st userId with
  | some e => (e, st)
  | none =>
    let L := st.queue.length
    let e : QueueEntry :=
      { userId := userId
        position := L + 1
        status := if L = 0 then QueueStatus.active else QueueStatus.waiting
        sessionId := sessionId
        expiresAt := if L = 0 then some (now + activeTTL) else none }
    (e, { queue := st.queue ++ [userId]
          entries := setKV st.entries userId e
          sessions := setKV st.sessions sessionId userId })

/-- Error outcomes of `QueueRepository.ActivateNext`, one per failing Redis
call: `LPOP` on an empty list, `LINDEX 0` on the now-empty list, and a
missing entry record for the new head. -/
inductive QueueErr where
  | popEmpty
  | indexEmpty
  | entryMissing
deriving DecidableEq

/-- `QueueRepository.ActivateNext`: `LPOP` the head (an error aborts with the
state unchanged; a successful pop persists even if a later step fails), read
the new head, load its entry record, set it Active with a fresh 15-minute
expiry and store it.  The popped user's own entry record is never touched. -/
def activateNext (st : QueueState) (now : Nat) :
    Except QueueErr QueueEntry × QueueState :=
  match st.queue with
  | [] => (Except.error QueueErr.popEmpty, st)
  | _ :: rest =>
    match rest.head? with
    | none => (Except.error QueueErr.indexEmpty, { st with queue := rest })
    | some uid =>
      match lookupKV st.entries uid with
      | none => (Except.error QueueErr.entryMissing, { st with queue := rest })
      | some e =>
        let e2 := { e with status := QueueStatus.active,
                           expiresAt := some (now + activeTTL) }
        (Except.ok e2, { st with queue := rest, entries := setKV st.entries uid e2 })

/-- A sequence of `Join` calls (used to state the ordering guarantee). -/
def joinAll (st : QueueState) : List (Nat × String × Nat) → QueueState
  | [] => st
  | (u, s, t) :: rest => joinAll (join st u s t).2 rest

/-- Error outcomes of `QueueService.RefreshSession`. -/
inductive RefreshErr where
  | sessionNotFound
  | entryNotFound
  | sessionNotActive
deriving DecidableEq

/-- `QueueService.RefreshSession`: load the entry bound to the session and
require `IsActive()` (a status check only — expiry is not checked).  The Go
code then computes `entry.ExpiresAt = now + 15min` on its local copy but
never writes the entry back (the source comments that saving "would need to
be implemented in the repository"), so the store is returned unchanged. -/
def refreshSession (st : QueueState) (sessionId : String) (now : Nat) :
    Except RefreshErr Unit × QueueState :=
  match lookupSession st sessionId with
  | none => (Except.error RefreshErr.sessionNotFound, st)
  | some uid =>
    match lookupEntry st uid with
    | none => (Except.error RefreshErr.entryNotFound, st)
    | some e =>
      if e.status ≠ QueueStatus.active then
        (Except.error RefreshErr.sessionNotActive, st)
      else
        (Except.ok (), st)

/-! ## Ticketing service (TicketingService, internal/service/ticketing.go,
over the rueidis TicketRepository of src/unnamed/part_003) -/

/-- The state a confirm/cancel/purchase call touches: the ticket keyspace
`ticket:{ticketId}`, the seat keyspace with its available index, and the
event's counter key.  (The user/event/status secondary indices of the ticket
store are not read by any verified operation.) -/
structure TicketingState where
  tickets : List Ticket
  seatSt : SeatState
  counter : Option Int
deriving DecidableEq

/-- `GET ticket:{tid}`. -/
def findTicket (tickets : List Ticket) (tid : Nat) : Option Ticket :=
  findBy Ticket.id tickets tid

/-- `SET ticket:{t.id}`. -/
def setTicket (tickets : List Ticket) (t : Ticket) : List Ticket :=
  setBy Ticket.id tickets t

/-- `TicketRepository.UpdateStatus` (rueidis implementation): load the
ticket, overwrite only its `Status` field, store it back.  In particular it
does not touch `ExpiresAt`.  `TicketRepository.ConfirmTicket` and
`CancelTicket` are direct calls of this with "confirmed" / "cancelled". -/
def updateTicketStatus (tickets : List Ticket) (tid : Nat) (status : TicketStatus) :
    Except Unit (List Ticket) :=
  match findTicket tickets tid with
  | none => Except.error ()
  | some t => Except.ok (setTicket tickets { t with status := status })

/-- Error outcomes of `TicketingService.ConfirmTicket`. -/
inductive ConfirmErr where
  | ticketNotFound
  | ticketNotReserved
  | ticketExpired
  | storeError
deriving DecidableEq

/-- `TicketingService.ConfirmTicket`: load the ticket; require
`IsReserved()` and not `IsExpired()`; call the repository's `ConfirmTicket`
(= `UpdateStatus "confirmed"`); for a seated ticket set the seat's status to
"sold" via `SeatRepository.UpdateStatus`, whose error is only logged.  The
counter is never touched. -/
def confirmTicket (st : TicketingState) (tid : Nat) (now : Nat) :
    Except ConfirmErr Unit × TicketingState :=
  match findTicket st.tickets tid with
  | none => (Except.error ConfirmErr.ticketNotFound, st)
  | some t =>
    if t.status ≠ TicketStatus.reserved then
      (Except.error ConfirmErr.ticketNotReserved, st)
    else if ticketIsExpired t now then
      (Except.error ConfirmErr.ticketExpired, st)
    else
      match updateTicketStatus st.tickets tid TicketStatus.confirmed with
      | Except.error _ => (Except.error ConfirmErr.storeError, st)
      | Except.ok tickets2 =>
        let seatSt2 :=
          match t.seatId with
          | none => st.seatSt
          | some sid =>
            match updateSeatStatus st.seatSt sid SeatStatus.sold with
            | Except.error _ => st.seatSt
            | Except.ok s2 => s2
        (Except.ok (), { tickets := tickets2, seatSt := seatSt2, counter := st.counter })

/-- Error outcomes of `TicketingService.CancelTicket`. -/
inductive CancelErr where
  | ticketNotFound
  | alreadyCancelled
  | storeError
deriving DecidableEq

/-- `TicketingService.CancelTicket`: load the ticket; require it not already
cancelled; call `CancelTicket` (= `UpdateStatus "cancelled"`); for a seated
ticket call `ReleaseSeats([seatId])`, whose error is only logged (the script
makes no writes when it fails); finally `IncrementAvailableTickets(+1)`,
whose error is also only logged. -/
def cancelTicket (st : TicketingState) (tid : Nat) :
    Except CancelErr Unit × TicketingState :=
  match findTicket st.tickets tid with
  | none => (Except.error CancelErr.ticketNotFound, st)
  | some t =>
    if t.status = TicketStatus.cancelled then
      (Except.error CancelErr.alreadyCancelled, st)
    else
      match updateTicketStatus st.tickets tid TicketStatus.cancelled with
      | Except.error _ => (Except.error CancelErr.storeError, st)
      | Except.ok tickets2 =>
        let seatSt2 :=
          match t.seatId with
          | none => st.seatSt
          | some sid => (releaseSeats st.seatSt [sid]).2
        let counter2 := (incrementLua st.counter 1).2
        (Except.ok (), { tickets := tickets2, seatSt := seatSt2, counter := counter2 })

/-- Error outcomes of `TicketingService.purchaseStandingTicket`. -/
inductive PurchaseErr where
  | noTicketsAvailable
  | decrementFailed
deriving DecidableEq

/-- `TicketingService.purchaseStandingTicket`: require the cached event's
`AvailableTickets > 0`; `DecrementAvailableTickets(event, 1)`; build a
Reserved ticket with the hard-coded price 5000 cents and a 15-minute expiry
and store it.  `newTicketId` stands for the random `uuid.New()`. -/
def purchaseStandingTicket (event : Event) (userId : Nat) (counter : Option Int)
    (newTicketId : Nat) (now : Nat) : Except PurchaseErr Ticket × Option Int :=
  if event.availableTickets ≤ 0 then (Except.error PurchaseErr.noTicketsAvailable, counter)
  else
    match decrementAvailableTickets counter 1 with
    | (DecResult.notFound, c2) => (Except.error PurchaseErr.decrementFailed, c2)
    | (DecResult.insufficientInventory, c2) => (Except.error PurchaseErr.decrementFailed, c2)
    | (DecResult.ok _, c2) =>
      (Except.ok
        { id := newTicketId
          eventId := event.id
          seatId := none
          userId := userId
          price := 5000
          status := TicketStatus.reserved
          expiresAt := some (now + activeTTL) }, c2)

end Ticketing

namespace Ticketing

/-! ## Theorems -/

/-! ### Keyed-store lemmas -/

theorem findBy_cons {β : Type} (key : β → Nat) (x : β) (xs : List β) (k : Nat) :
    findBy key (x :: xs) k = if key x = k then some x else findBy key xs k := by
  by_cases h : key x = k
  · simp [findBy, List.find?_cons_of_pos, h]
  · simp [findBy, List.find?_cons_of_neg, h]

theorem setBy_cons {β : Type} (key : β → Nat) (x : β) (xs : List β) (v : β) :
    setBy key (x :: xs) v = (if key x = key v then v else x) :: setBy key xs v := by
  by_cases h : key x = key v
  · simp [setBy, h]
  · simp [setBy, h]

theorem findBy_key {β : Type} (key : β → Nat) (l : List β) (k : Nat) (v : β)
    (h : findBy key l k = some v) : key v = k := by
  have h2 := List.find?_some h
  simpa using h2

theorem setBy_map_key {β : Type} (key : β → Nat) (l : List β) (v : β) :
    (setBy key l v).map key = l.map key := by
  induction l with
  | nil => rfl
  | cons x xs ih =>
    rw [setBy_cons]
    by_cases h : key x = key v
    · simp [h, ih]
    · simp [h, ih]

theorem findBy_setBy_ne {β : Type} (key : β → Nat) (l : List β) (v : β) (k : Nat)
    (h : key v ≠ k) : findBy key (setBy key l v) k = findBy key l k := by
  induction l with
  | nil => rfl
  | cons x xs ih =>
    rw [setBy_cons]
    by_cases hx : key x = key v
    · have hxk : ¬ key x = k := by rw [hx]; exact h
      rw [if_pos hx, findBy_cons, findBy_cons, if_neg h, if_neg hxk]
      exact ih
    · rw [if_neg hx, findBy_cons, findBy_cons]
      by_cases hk : key x = k
      · rw [if_pos hk, if_pos hk]
      · rw [if_neg hk, if_neg hk]
        exact ih

theorem findBy_setBy_self {β : Type} (key : β → Nat) (l : List β) (v : β)
    (h : (findBy key l (key v)).isSome) :
    findBy key (setBy key l v) (key v) = some v := by
  induction l with
  | nil => simp [findBy] at h
  | cons x xs ih =>
    rw [setBy_cons]
    by_cases hx : key x = key v
    · rw [if_pos hx, findBy_cons, if_pos rfl]
    · rw [if_neg hx, findBy_cons, if_neg hx]
      rw [findBy_cons, if_neg hx] at h
      exact ih h

theorem findBy_isSome_iff {β : Type} (key : β → Nat) (l : List β) (k : Nat) :
    (findBy key l k).isSome ↔ k ∈ l.map key := by
  induction l with
  | nil => simp [findBy]
  | cons x xs ih =>
    rw [findBy_cons]
    by_cases h : key x = k
    · simp [h]
    · simp only [List.map_cons, List.mem_cons, if_neg h]
      rw [ih]
      constructor
      · intro hm
        exact Or.inr hm
      · intro hm
        rcases hm with hm | hm
        · exact absurd hm.symm h
        · exact hm

theorem lookupKV_cons {α β : Type} [BEq α] [LawfulBEq α] [DecidableEq α] (p : α × β)
    (ps : List (α × β)) (k : α) :
    lookupKV (p :: ps) k = if p.1 = k then some p.2 else lookupKV ps k := by
  by_cases h : p.1 = k
  · simp [lookupKV, List.find?_cons_of_pos, h]
  · simp [lookupKV, List.find?_cons_of_neg, h]

theorem setKV_of_isSome {α β : Type} [BEq α] (l : List (α × β)) (k : α) (v : β)
    (h : (l.find? (fun p => p.1 == k)).isSome) :
    setKV l k v = l.map (fun p => if p.1 == k then (k, v) else p) := by
  simp [setKV, h]

theorem setKV_of_not_isSome {α β : Type} [BEq α] (l : List (α × β)) (k : α) (v : β)
    (h : ¬ (l.find? (fun p => p.1 == k)).isSome) :
    setKV l k v = l ++ [(k, v)] := by
  simp [setKV, h]

theorem lookupKV_append_right {α β : Type} [BEq α] [LawfulBEq α] [DecidableEq α]
    (l l2 : List (α × β)) (k : α) (h : lookupKV l k = none) :
    lookupKV (l ++ l2) k = lookupKV l2 k := by
  induction l with
  | nil => rfl
  | cons p ps ih =>
    rw [lookupKV_cons] at h
    by_cases hp : p.1 = k
    · rw [if_pos hp] at h; exact absurd h (by simp)
    · rw [if_neg hp] at h
      rw [List.cons_append, lookupKV_cons, if_neg hp]
      exact ih h

theorem lookupKV_isSome_of_find {α β : Type} [BEq α] [LawfulBEq α] [DecidableEq α]
    (l : List (α × β)) (k : α)
    (h : (l.find? (fun p => p.1 == k)).isSome) : (lookupKV l k).isSome := by
  simp [lookupKV, h]

theorem lookupKV_mapset_self {α β : Type} [BEq α] [LawfulBEq α] [DecidableEq α]
    (l : List (α × β)) (k : α) (v : β)
    (h : (l.find? (fun p => p.1 == k)).isSome) :
    lookupKV (l.map (fun p => if p.1 == k then (k, v) else p)) k = some v := by
  induction l with
  | nil => simp at h
  | cons p ps ih =>
    by_cases hp : p.1 = k
    · simp only [List.map_cons, if_pos (show (p.1 == k) = true by simpa using hp)]
      rw [lookupKV_cons, if_pos rfl]
    · simp only [List.map_cons, if_neg (show ¬ (p.1 == k) = true by simpa using hp)]
      rw [lookupKV_cons, if_neg hp]
      refine ih ?_
      rw [List.find?_cons_of_neg] at h
      · exact h
      · simpa using hp

theorem lookupKV_mapset_ne {α β : Type} [BEq α] [LawfulBEq α] [DecidableEq α]
    (l : List (α × β)) (k k' : α) (v : β) (h : k' ≠ k) :
    lookupKV (l.map (fun p => if p.1 == k then (k, v) else p)) k' = lookupKV l k' := by
  induction l with
  | nil => rfl
  | cons p ps ih =>
    by_cases hp : p.1 = k
    · simp only [List.map_cons, if_pos (show (p.1 == k) = true by simpa using hp)]
      rw [lookupKV_cons, lookupKV_cons]
      have h1 : ¬ (k = k') := fun hk => h hk.symm
      have h2 : ¬ (p.1 = k') := by rw [hp]; exact h1
      rw [if_neg h1, if_neg h2]
      exact ih
    · simp only [List.map_cons, if_neg (show ¬ (p.1 == k) = true by simpa using hp)]
      rw [lookupKV_cons, lookupKV_cons]
      by_cases hk : p.1 = k'
      · rw [if_pos hk, if_pos hk]
      · rw [if_neg hk, if_neg hk]
        exact ih

theorem lookupKV_append_single_ne {α β : Type} [BEq α] [LawfulBEq α] [DecidableEq α]
    (l : List (α × β)) (k k' : α) (v : β) (h : k' ≠ k) :
    lookupKV (l ++ [(k, v)]) k' = lookupKV l k' := by
  induction l with
  | nil =>
    rw [List.nil_append, lookupKV_cons, if_neg (fun hk => h hk.symm)]
  | cons p ps ih =>
    rw [List.cons_append, lookupKV_cons, lookupKV_cons]
    by_cases hk : p.1 = k'
    · rw [if_pos hk, if_pos hk]
    · rw [if_neg hk, if_neg hk]
      exact ih

theorem lookupKV_setKV_self {α β : Type} [BEq α] [LawfulBEq α] [DecidableEq α]
    (l : List (α × β)) (k : α) (v : β) :
    lookupKV (setKV l k v) k = some v := by
  by_cases h : (l.find? (fun p => p.1 == k)).isSome
  · rw [setKV_of_isSome l k v h]
    exact lookupKV_mapset_self l k v h
  · rw [setKV_of_not_isSome l k v h]
    have hfind : l.find? (fun p => p.1 == k) = none :=
      Option.not_isSome_iff_eq_none.mp h
    have hnone : lookupKV l k = none := by
      rw [lookupKV, hfind]
      rfl
    rw [lookupKV_append_right l _ k hnone, lookupKV_cons, if_pos rfl]

theorem lookupKV_setKV_ne {α β : Type} [BEq α] [LawfulBEq α] [DecidableEq α]
    (l : List (α × β)) (k k' : α) (v : β) (h : k' ≠ k) :
    lookupKV (setKV l k v) k' = lookupKV l k' := by
  by_cases hc : (l.find? (fun p => p.1 == k)).isSome
  · rw [setKV_of_isSome l k v hc]
    exact lookupKV_mapset_ne l k k' v h
  · rw [setKV_of_not_isSome l k v hc]
    exact lookupKV_append_single_ne l k k' v h

/-- C1: `decrementAvailable(eventId, n)` on counter value `c` fails with
`InsufficientInventory` when `c < n` (script code `-2`) and with `NotFound`
when the counter key is absent (script code `-1`); otherwise it returns the
new count `c - n` and stores it.  The stored count never becomes negative
(on success `0 ≤ c - n`), and on failure the counter is unchanged. -/
theorem decrementAvailable_spec (c n : Int) :
    decrementAvailableTickets none n = (DecResult.notFound, none)
    ∧ (c < n →
        decrementAvailableTickets (some c) n = (DecResult.insufficientInventory, some c))
    ∧ (n ≤ c →
        decrementAvailableTickets (some c) n = (DecResult.ok (c - n), some (c - n))
        ∧ 0 ≤ c - n) := by
  refine ⟨rfl, fun hlt => ?_, fun hle => ⟨?_, by omega⟩⟩
  · simp [decrementAvailableTickets, decrementLua, hlt]
  · have h1 : ¬ c < n := not_lt.mpr hle
    have h2 : c - n ≠ -1 := by omega
    have h3 : c - n ≠ -2 := by omega
    simp [decrementAvailableTickets, decrementLua, h1, h2, h3]

/-- Witness for C1: concrete runs of both failure branches and the success
branch of `decrementAvailable_spec`. -/
theorem decrementAvailable_spec_witness :
    decrementAvailableTickets (some 1) 2 = (DecResult.insufficientInventory, some 1)
    ∧ decrementAvailableTickets (some 5) 2 = (DecResult.ok 3, some 3) := by
  refine ⟨(decrementAvailable_spec 1 2).2.1 (by norm_num), ?_⟩
  have h := ((decrementAvailable_spec 5 2).2.2 (by norm_num)).1
  simpa using h

/-! ### ReserveSeats lemmas -/

theorem reservedList_cons_of_found (seats0 : List Seat) (sid : Nat) (ids : List Nat)
    (s : Seat) (hs : findSeat seats0 sid = some s) :
    reservedList seats0 (sid :: ids)
      = { s with status := SeatStatus.reserved } :: reservedList seats0 ids := by
  simp [reservedList, reservedAt, List.filterMap_cons, hs]

theorem mem_reservedList_id (seats0 : List Seat) (ids : List Nat) (u : Seat)
    (hu : u ∈ reservedList seats0 ids) : u.id ∈ ids := by
  simp only [reservedList, List.mem_filterMap] at hu
  obtain ⟨sid, hsid, hres⟩ := hu
  rcases hfind : findSeat seats0 sid with _ | s
  · rw [reservedAt, hfind] at hres
    simp at hres
  · rw [reservedAt, hfind] at hres
    have hres' : { s with status := SeatStatus.reserved } = u := by
      simpa using hres
    have hid : s.id = sid := findBy_key Seat.id seats0 sid s hfind
    have hu2 : u.id = sid := by
      rw [← hres']
      exact hid
    rw [hu2]
    exact hsid

theorem reserveValidate_all_good (seats : List Seat) (ids : List Nat)
    (h : ∀ x ∈ ids, ∃ s, findSeat seats x = some s ∧ s.status = SeatStatus.available) :
    reserveValidate seats ids = Except.ok (reservedList seats ids) := by
  induction ids with
  | nil => rfl
  | cons sid rest ih =>
    obtain ⟨s, hs, hav⟩ := h sid (List.mem_cons_self sid rest)
    have hrest := ih (fun x hx => h x (List.mem_cons_of_mem sid hx))
    rw [reservedList_cons_of_found seats sid rest s hs]
    simp only [reserveValidate, hs, hrest, if_pos hav]

theorem reserveValidate_append_error (seats : List Seat) (pre ids2 : List Nat)
    (e : ReserveErr)
    (hpre : ∀ x ∈ pre, ∃ s, findSeat seats x = some s ∧ s.status = SeatStatus.available)
    (h : reserveValidate seats ids2 = Except.error e) :
    reserveValidate seats (pre ++ ids2) = Except.error e := by
  induction pre with
  | nil => simpa using h
  | cons x pre' ih =>
    obtain ⟨s, hs, hav⟩ := hpre x (List.mem_cons_self x pre')
    have h' := ih (fun y hy => hpre y (List.mem_cons_of_mem x hy))
    rw [List.cons_append, reserveValidate, hs]
    simp only [if_pos hav, h']

theorem applyReserveWrites_map_id (l : List Seat) (st : SeatState) :
    ((applyReserveWrites st l).seats).map Seat.id = st.seats.map Seat.id := by
  induction l generalizing st with
  | nil => rfl
  | cons u rest ih =>
    rw [applyReserveWrites, ih]
    exact setBy_map_key Seat.id st.seats u

theorem findSeat_applyReserveWrites_frame (l : List Seat) (st : SeatState) (sid : Nat)
    (h : ∀ u ∈ l, u.id ≠ sid) :
    findSeat (applyReserveWrites st l).seats sid = findSeat st.seats sid := by
  induction l generalizing st with
  | nil => rfl
  | cons u rest ih =>
    rw [applyReserveWrites, ih _ (fun v hv => h v (List.mem_cons_of_mem u hv))]
    exact findBy_setBy_ne Seat.id st.seats u sid (h u (List.mem_cons_self u rest))

theorem avail_applyReserveWrites_subset (l : List Seat) (st : SeatState)
    (p : Nat × Nat) (h : p ∈ (applyReserveWrites st l).avail) : p ∈ st.avail := by
  induction l generalizing st with
  | nil => exact h
  | cons u rest ih =>
    have h2 := ih _ h
    simp only [removeAvail, List.mem_filter] at h2
    exact h2.1

theorem not_mem_removeAvail (avail : List (Nat × Nat)) (e sid : Nat) :
    (e, sid) ∉ removeAvail avail e sid := by
  intro h
  simp [removeAvail, List.mem_filter] at h

theorem findSeat_applyReserveWrites (seats0 : List Seat) (ids : List Nat)
    (hgood : ∀ x ∈ ids, (findSeat seats0 x).isSome) (st : SeatState)
    (hpres : ∀ x ∈ ids, x ∈ st.seats.map Seat.id)
    (sid : Nat) (hsid : sid ∈ ids) :
    findSeat (applyReserveWrites st (reservedList seats0 ids)).seats sid
      = reservedAt seats0 sid := by
  induction ids generalizing st with
  | nil => exact absurd hsid (List.not_mem_nil sid)
  | cons x rest ih =>
    obtain ⟨sx, hsx⟩ := Option.isSome_iff_exists.mp
      (hgood x (List.mem_cons_self x rest))
    rw [reservedList_cons_of_found seats0 x rest sx hsx, applyReserveWrites]
    have hmapeq : (setSeat st.seats { sx with status := SeatStatus.reserved }).map Seat.id
        = st.seats.map Seat.id := setBy_map_key Seat.id st.seats _
    have hgood2 : ∀ y ∈ rest, (findSeat seats0 y).isSome :=
      fun y hy => hgood y (List.mem_cons_of_mem x hy)
    by_cases hmem : sid ∈ rest
    · refine ih hgood2 _ ?_ hmem
      intro y hy
      show y ∈ (setSeat st.seats { sx with status := SeatStatus.reserved }).map Seat.id
      rw [hmapeq]
      exact hpres y (List.mem_cons_of_mem x hy)
    · have hx : sid = x := by
        rcases List.mem_cons.mp hsid with h | h
        · exact h
        · exact absurd h hmem
      subst hx
      have hframe : ∀ u ∈ reservedList seats0 rest, u.id ≠ sid := by
        intro u hu heq
        exact hmem (heq ▸ mem_reservedList_id seats0 rest u hu)
      rw [findSeat_applyReserveWrites_frame _ _ sid hframe]
      have hid : sx.id = sid := findBy_key Seat.id seats0 sid sx hsx
      have hsome : (findBy Seat.id st.seats sx.id).isSome := by
        rw [hid, findBy_isSome_iff]
        exact hpres sid hsid
      have h2 := findBy_setBy_self Seat.id st.seats
        { sx with status := SeatStatus.reserved } hsome
      have hgoal : findBy Seat.id
          (setSeat st.seats { sx with status := SeatStatus.reserved }) sid
          = some { sx with status := SeatStatus.reserved } := by
        rw [← hid]
        exact h2
      show findBy Seat.id (setSeat st.seats { sx with status := SeatStatus.reserved }) sid
          = reservedAt seats0 sid
      rw [hgoal, reservedAt, hsx]
      rfl

theorem avail_applyReserveWrites (seats0 : List Seat) (ids : List Nat)
    (hgood : ∀ x ∈ ids, (findSeat seats0 x).isSome) (st : SeatState)
    (sid : Nat) (hsid : sid ∈ ids) (s : Seat) (hs : findSeat seats0 sid = some s) :
    (s.eventId, sid) ∉ (applyReserveWrites st (reservedList seats0 ids)).avail := by
  induction ids generalizing st with
  | nil => exact absurd hsid (List.not_mem_nil sid)
  | cons x rest ih =>
    obtain ⟨sx, hsx⟩ := Option.isSome_iff_exists.mp
      (hgood x (List.mem_cons_self x rest))
    rw [reservedList_cons_of_found seats0 x rest sx hsx, applyReserveWrites]
    have hgood2 : ∀ y ∈ rest, (findSeat seats0 y).isSome :=
      fun y hy => hgood y (List.mem_cons_of_mem x hy)
    by_cases hmem : sid ∈ rest
    · exact ih hgood2 _ hmem
    · have hx : sid = x := by
        rcases List.mem_cons.mp hsid with h | h
        · exact h
        · exact absurd h hmem
      subst hx
      have hseq : sx = s := by
        rw [hsx] at hs
        exact Option.some_inj.mp hs
      subst hseq
      have hid : sx.id = sid := findBy_key Seat.id seats0 sid sx hsx
      intro hcontra
      have h2 := avail_applyReserveWrites_subset _ _ _ hcontra
      simp only at h2
      rw [hid] at h2
      exact not_mem_removeAvail st.avail sx.eventId sid h2

/-- C2 counterexample: for a missing seat the script aborts with its
`seat_not_found` outcome ("one or more seats not found"), which is a
different error from the `seat_not_available` outcome that surfaces as
`SeatUnavailable`; the claim says a missing seat also fails with
`SeatUnavailable`. -/
theorem reserveSeats_missing_counterexample :
    reserveSeats ⟨[], []⟩ [7] = (Except.error ReserveErr.seatNotFound, ⟨[], []⟩)
    ∧ ReserveErr.seatNotFound ≠ ReserveErr.seatNotAvailable := by
  exact ⟨rfl, by decide⟩

/-- C2 (amended): `reserveSeats(seatIds)` is all-or-nothing: if every listed
seat exists and is Available, all of them transition to Reserved and are
removed from the per-event available index; if any listed seat is missing
the call fails with the seat-not-found error, and if any listed seat exists
but is not Available it fails with the seat-not-available error
(`SeatUnavailable`); in both failure cases no state is mutated, seats are
evaluated in the given order, and the first offending seat determines which
error is returned. -/
theorem reserveSeats_amended (st : SeatState) (ids : List Nat) :
    ((∀ x ∈ ids, ∃ s, findSeat st.seats x = some s ∧ s.status = SeatStatus.available) →
      ∃ st', reserveSeats st ids = (Except.ok (), st')
        ∧ (∀ sid ∈ ids, ∀ s, findSeat st.seats sid = some s →
            findSeat st'.seats sid = some { s with status := SeatStatus.reserved }
            ∧ (s.eventId, sid) ∉ st'.avail))
    ∧ (∀ pre sid rest, ids = pre ++ sid :: rest →
        (∀ x ∈ pre, ∃ s, findSeat st.seats x = some s ∧ s.status = SeatStatus.available) →
        (findSeat st.seats sid = none →
            reserveSeats st ids = (Except.error ReserveErr.seatNotFound, st))
        ∧ (∀ s, findSeat st.seats sid = some s → s.status ≠ SeatStatus.available →
            reserveSeats st ids = (Except.error ReserveErr.seatNotAvailable, st))) := by
  constructor
  · intro hgoodall
    have hgood : ∀ x ∈ ids, (findSeat st.seats x).isSome := by
      intro x hx
      obtain ⟨s, hs, _⟩ := hgoodall x hx
      rw [hs]
      rfl
    have hvar := reserveValidate_all_good st.seats ids hgoodall
    refine ⟨applyReserveWrites st (reservedList st.seats ids), ?_, ?_⟩
    · rw [reserveSeats, hvar]
    · intro sid hsid s hs
      have hpres : ∀ x ∈ ids, x ∈ st.seats.map Seat.id := by
        intro x hx
        rw [← findBy_isSome_iff]
        exact hgood x hx
      constructor
      · rw [findSeat_applyReserveWrites st.seats ids hgood st hpres sid hsid,
          reservedAt, hs]
        rfl
      · exact avail_applyReserveWrites st.seats ids hgood st sid hsid s hs
  · intro pre sid rest hids hpre
    constructor
    · intro hnone
      have hv : reserveValidate st.seats (sid :: rest)
          = Except.error ReserveErr.seatNotFound := by
        rw [reserveValidate, hnone]
      have := reserveValidate_append_error st.seats pre (sid :: rest) _ hpre hv
      rw [hids, reserveSeats, this]
    · intro s hs hnav
      have hv : reserveValidate st.seats (sid :: rest)
          = Except.error ReserveErr.seatNotAvailable := by
        rw [reserveValidate, hs]
        simp only [if_neg hnav]
      have := reserveValidate_append_error st.seats pre (sid :: rest) _ hpre hv
      rw [hids, reserveSeats, this]

/-! ### Queue lemmas -/

theorem join_queue_length_le (st : QueueState) (u : Nat) (s : String) (t : Nat) :
    st.queue.length ≤ (join st u s t).2.queue.length := by
  rcases h : lookupEntry st u with _ | e
  · simp [join, h]
  · simp [join, h]

theorem join_position_of_fresh (st : QueueState) (u : Nat) (s : String) (t : Nat)
    (h : lookupEntry st u = none) :
    (join st u s t).1.position = st.queue.length + 1 := by
  simp [join, h]

theorem join_queue_of_fresh (st : QueueState) (u : Nat) (s : String) (t : Nat)
    (h : lookupEntry st u = none) :
    (join st u s t).2.queue = st.queue ++ [u] := by
  simp [join, h]

theorem joinAll_queue_length_le (ops : List (Nat × String × Nat)) (st : QueueState) :
    st.queue.length ≤ (joinAll st ops).queue.length := by
  induction ops generalizing st with
  | nil => exact le_refl _
  | cons op rest ih =>
    rcases op with ⟨u, s, t⟩
    calc st.queue.length ≤ (join st u s t).2.queue.length :=
          join_queue_length_le st u s t
      _ ≤ (joinAll (join st u s t).2 rest).queue.length := ih _

/-- C3 counterexample: user 1 joins an empty queue (position 1); an
`ActivateNext` pops the list back to empty; then user 2 joins and is also
assigned position 1, although join(1) completed before join(2) began. -/
theorem join_order_counterexample :
    (join (⟨[], [], []⟩ : QueueState) 1 "s1" 0).1.position = 1
    ∧ (join (activateNext (join (⟨[], [], []⟩ : QueueState) 1 "s1" 0).2 0).2
        2 "s2" 0).1.position = 1
    ∧ ¬ ((join (⟨[], [], []⟩ : QueueState) 1 "s1" 0).1.position
        < (join (activateNext (join (⟨[], [], []⟩ : QueueState) 1 "s1" 0).2 0).2
            2 "s2" 0).1.position) := by
  refine ⟨by decide, by decide, by decide⟩

/-- C3 (amended): positions are assigned at insertion as list-length + 1 and
never renumbered, so when join(A) is acknowledged before join(B) begins and
only further `Join` calls (no `ActivateNext` pop) happen in between,
A.position < B.position.  With an interleaved `ActivateNext` the list
shrinks and a later join can re-use an earlier position, so the guarantee as
claimed fails (see the counterexample). -/
theorem join_order_amended (st : QueueState) (a b : Nat) (sa sb : String)
    (ta tb : Nat) (ops : List (Nat × String × Nat))
    (ha : lookupEntry st a = none)
    (hb : lookupEntry (joinAll (join st a sa ta).2 ops) b = none) :
    (join st a sa ta).1.position
      < (join (joinAll (join st a sa ta).2 ops) b sb tb).1.position := by
  have hpa := join_position_of_fresh st a sa ta ha
  have hq1 : (join st a sa ta).2.queue.length = st.queue.length + 1 := by
    rw [join_queue_of_fresh st a sa ta ha]
    simp
  have hpb := join_position_of_fresh (joinAll (join st a sa ta).2 ops) b sb tb hb
  have hmono := joinAll_queue_length_le ops (join st a sa ta).2
  rw [hpa, hpb]
  omega

/-- Witness for C3 (amended): two fresh users joining an empty queue with no
intervening pop get positions 1 and 2. -/
theorem join_order_amended_witness :
    (join (⟨[], [], []⟩ : QueueState) 1 "s1" 0).1.position
      < (join (joinAll (join (⟨[], [], []⟩ : QueueState) 1 "s1" 0).2 [])
          2 "s2" 0).1.position :=
  join_order_amended ⟨[], [], []⟩ 1 2 "s1" "s2" 0 0 [] (by decide) (by decide)

/-- C4 counterexample: `ActivateNext` promotes the new head but leaves the
popped entry's stored status untouched — here user 1's entry stays "active"
and is neither Completed nor Expired after the call. -/
theorem activateNext_popped_counterexample :
    activateNext
        (⟨[1, 2],
          [(1, ⟨1, 1, QueueStatus.active, "s1", some 100⟩),
           (2, ⟨2, 2, QueueStatus.waiting, "s2", none⟩)], []⟩ : QueueState) 50
      = (Except.ok ⟨2, 2, QueueStatus.active, "s2", some 950⟩,
         ⟨[2],
          [(1, ⟨1, 1, QueueStatus.active, "s1", some 100⟩),
           (2, ⟨2, 2, QueueStatus.active, "s2", some 950⟩)], []⟩)
    ∧ QueueStatus.active ≠ QueueStatus.completed
    ∧ QueueStatus.active ≠ QueueStatus.expired := by
  refine ⟨rfl, by decide, by decide⟩

/-- C4 (amended): `ActivateNext` pops the queue head, leaving the popped
user's stored entry record completely unchanged (its status never moves to
Completed or Expired); it then transitions the new head's entry to Active —
whatever its previous status — with `expiresAt = now + ActiveTTL`, returning
that entry.  On an empty queue it fails with the pop error and leaves the
state unchanged; on a one-element queue the pop persists but the call fails
at the index step. -/
theorem activateNext_amended (st : QueueState) (now : Nat) :
    (st.queue = [] → activateNext st now = (Except.error QueueErr.popEmpty, st))
    ∧ (∀ u, st.queue = [u] →
        activateNext st now = (Except.error QueueErr.indexEmpty, { st with queue := [] }))
    ∧ (∀ u1 u2 rest e2, st.queue = u1 :: u2 :: rest →
        lookupEntry st u2 = some e2 →
        activateNext st now
          = (Except.ok { e2 with status := QueueStatus.active,
                                 expiresAt := some (now + activeTTL) },
             { st with queue := u2 :: rest,
                       entries := setKV st.entries u2
                         { e2 with status := QueueStatus.active,
                                   expiresAt := some (now + activeTTL) } })
        ∧ (u1 ≠ u2 →
            lookupEntry (activateNext st now).2 u1 = lookupEntry st u1)) := by
  refine ⟨fun h => by simp [activateNext, h], fun u h => by simp [activateNext, h],
    fun u1 u2 rest e2 hq he => ?_⟩
  have hmain : activateNext st now
      = (Except.ok { e2 with status := QueueStatus.active,
                             expiresAt := some (now + activeTTL) },
         { st with queue := u2 :: rest,
                   entries := setKV st.entries u2
                     { e2 with status := QueueStatus.active,
                               expiresAt := some (now + activeTTL) } }) := by
    rw [lookupEntry] at he
    simp [activateNext, hq, he]
  refine ⟨hmain, fun hne => ?_⟩
  rw [hmain]
  show lookupKV (setKV st.entries u2 _) u1 = lookupKV st.entries u1
  exact lookupKV_setKV_ne st.entries u2 u1 _ hne

/-- Witness for C4 (amended): the two-user promotion applied concretely. -/
theorem activateNext_amended_witness :
    activateNext
        (⟨[3, 4],
          [(3, ⟨3, 1, QueueStatus.active, "t1", some 100⟩),
           (4, ⟨4, 2, QueueStatus.waiting, "t2", none⟩)], []⟩ : QueueState) 50
      = (Except.ok ⟨4, 2, QueueStatus.active, "t2", some 950⟩,
         ⟨[4],
          [(3, ⟨3, 1, QueueStatus.active, "t1", some 100⟩),
           (4, ⟨4, 2, QueueStatus.active, "t2", some 950⟩)], []⟩) := by
  have h := ((activateNext_amended
      (⟨[3, 4],
        [(3, ⟨3, 1, QueueStatus.active, "t1", some 100⟩),
         (4, ⟨4, 2, QueueStatus.waiting, "t2", none⟩)], []⟩ : QueueState) 50).2.2
      3 4 [] ⟨4, 2, QueueStatus.waiting, "t2", none⟩ rfl (by decide)).1
  rw [h]
  rfl

/-- C5 counterexample: user 1 already has a *terminal* (Completed) entry with
position 5; the claim says `join` should then create a fresh entry (position
L+1 = 1, status Active since the list is empty), but the code returns the
existing Completed entry unchanged and mutates nothing. -/
theorem join_existing_terminal_counterexample :
    join (⟨[], [(1, ⟨1, 5, QueueStatus.completed, "old", none⟩)], []⟩ : QueueState)
        1 "s1" 0
      = (⟨1, 5, QueueStatus.completed, "old", none⟩,
         ⟨[], [(1, ⟨1, 5, QueueStatus.completed, "old", none⟩)], []⟩)
    ∧ QueueStatus.completed ≠ QueueStatus.active
    ∧ (5 : Nat) ≠ 0 + 1 := by
  refine ⟨by decide, by decide, by decide⟩

/-- C5 (amended): if the user already has an entry for the event of *any*
status (terminal ones included), `join` returns that entry unchanged and
mutates nothing; only when the user has no entry at all is a new entry
created, with `position = L + 1` for current list length `L`, status Active
with `expiresAt = now + 15min` when `L = 0` and Waiting with no expiry
otherwise, the userId appended to the list, and the session bound to the
entry key. -/
theorem join_amended (st : QueueState) (u : Nat) (s : String) (now : Nat) :
    (∀ e, lookupEntry st u = some e → join st u s now = (e, st))
    ∧ (lookupEntry st u = none →
        ∃ e, join st u s now
            = (e, { queue := st.queue ++ [u],
                    entries := setKV st.entries u e,
                    sessions := setKV st.sessions s u })
          ∧ e.position = st.queue.length + 1
          ∧ e.userId = u
          ∧ e.sessionId = s
          ∧ (st.queue.length = 0 →
              e.status = QueueStatus.active ∧ e.expiresAt = some (now + activeTTL))
          ∧ (st.queue.length ≠ 0 →
              e.status = QueueStatus.waiting ∧ e.expiresAt = none)
          ∧ lookupEntry (join st u s now).2 u = some e
          ∧ lookupSession (join st u s now).2 s = some u) := by
  constructor
  · intro e he
    simp [join, he]
  · intro hnone
    have hj : join st u s now
        = (⟨u, st.queue.length + 1,
            (if st.queue.length = 0 then QueueStatus.active else QueueStatus.waiting),
            s,
            (if st.queue.length = 0 then some (now + activeTTL) else none)⟩,
           ⟨st.queue ++ [u],
            setKV st.entries u
              ⟨u, st.queue.length + 1,
               (if st.queue.length = 0 then QueueStatus.active else QueueStatus.waiting),
               s,
               (if st.queue.length = 0 then some (now + activeTTL) else none)⟩,
            setKV st.sessions s u⟩) := by
      simp [join, hnone]
    refine ⟨_, hj, rfl, rfl, rfl, ?_, ?_, ?_, ?_⟩
    · intro hL
      exact ⟨by simp [hL], by simp [hL]⟩
    · intro hL
      exact ⟨by simp [hL], by simp [hL]⟩
    · rw [hj]
      exact lookupKV_setKV_self st.entries u _
    · rw [hj]
      exact lookupKV_setKV_self st.sessions s u

/-- Witness for C5 (amended): a fresh user joining an empty queue gets the
Active position-1 entry and the session binding. -/
theorem join_amended_witness :
    ∃ e : QueueEntry,
      join (⟨[], [], []⟩ : QueueState) 7 "w1" 0
          = (e, { queue := [7], entries := setKV [] 7 e, sessions := setKV [] "w1" 7 })
        ∧ e.position = 1
        ∧ e.status = QueueStatus.active
        ∧ e.expiresAt = some (0 + activeTTL)
        ∧ lookupEntry (join (⟨[], [], []⟩ : QueueState) 7 "w1" 0).2 7 = some e := by
  obtain ⟨e, h1, h2, _, _, h5, _, h7, _⟩ :=
    (join_amended ⟨[], [], []⟩ 7 "w1" 0).2 (by decide)
  obtain ⟨hs, hx⟩ := h5 rfl
  exact ⟨e, h1, h2, hs, hx, h7⟩

/-- C9: `RefreshSession` on a session bound to an Active entry reports
success but never writes the refreshed expiry back to the store (the Go code
ends with a comment that saving "would need to be implemented"); here the
stored entry keeps `expiresAt = 100` at `now = 10` instead of being extended
to `now + 15min`, so the extension is invisible to subsequent operations.
The code also skips the claimed expiry check. -/
theorem refreshSession_failing_input :
    refreshSession
        (⟨[1], [(1, ⟨1, 1, QueueStatus.active, "s1", some 100⟩)], [("s1", 1)]⟩ :
          QueueState) "s1" 10
      = (Except.ok (),
         ⟨[1], [(1, ⟨1, 1, QueueStatus.active, "s1", some 100⟩)], [("s1", 1)]⟩)
    ∧ some (100 : Nat) ≠ some (10 + activeTTL) := by
  refine ⟨rfl, by decide⟩

/-- Supporting fact for C9: `RefreshSession` never mutates the store, on any
input — success and failure paths alike return the state unchanged. -/
theorem refreshSession_no_write (st : QueueState) (s : String) (now : Nat) :
    (refreshSession st s now).2 = st := by
  rcases h1 : lookupSession st s with _ | uid
  · simp [refreshSession, h1]
  · rcases h2 : lookupEntry st uid with _ | e
    · simp [refreshSession, h1, h2]
    · by_cases h3 : e.status = QueueStatus.active
      · simp [refreshSession, h1, h2, h3]
      · simp [refreshSession, h1, h2, h3]

/-- Witness for C2: a concrete successful reservation of a single available
seat, produced by `reserveSeats_amended`. -/
theorem reserveSeats_amended_witness :
    ∃ st' : SeatState,
      reserveSeats ⟨[⟨1, 10, 100, SeatStatus.available⟩], [(10, 1)]⟩ [1]
        = (Except.ok (), st')
      ∧ findSeat st'.seats 1 = some ⟨1, 10, 100, SeatStatus.reserved⟩
      ∧ (10, 1) ∉ st'.avail := by
  have h := (reserveSeats_amended ⟨[⟨1, 10, 100, SeatStatus.available⟩], [(10, 1)]⟩ [1]).1
  obtain ⟨st', h1, h2⟩ := h (by
    intro x hx
    have hx1 : x = 1 := by simpa using hx
    subst hx1
    exact ⟨⟨1, 10, 100, SeatStatus.available⟩, rfl, rfl⟩)
  obtain ⟨hf, ha⟩ := h2 1 (by simp) ⟨1, 10, 100, SeatStatus.available⟩ rfl
  exact ⟨st', h1, hf, ha⟩

/-! ### Ticketing-service lemmas -/

theorem findBy_set_found {β : Type} (key : β → Nat) (l : List β) (k : Nat) (v0 v : β)
    (hfind : findBy key l k = some v0) (hkey : key v = k) :
    findBy key (setBy key l v) k = some v := by
  have hsome : (findBy key l (key v)).isSome := by
    rw [hkey, hfind]
    rfl
  have h2 := findBy_setBy_self key l v hsome
  rw [hkey] at h2
  exact h2

theorem updateSeatStatus_of_found (sst : SeatState) (sid : Nat) (status : SeatStatus)
    (s : Seat) (hs : findSeat sst.seats sid = some s) :
    ∃ av, updateSeatStatus sst sid status
      = Except.ok { seats := setSeat sst.seats { s with status := status }, avail := av } := by
  refine ⟨if s.status = SeatStatus.available ∧ status ≠ SeatStatus.available then
            removeAvail sst.avail s.eventId sid
          else if s.status ≠ SeatStatus.available ∧ status = SeatStatus.available then
            addAvail sst.avail s.eventId sid
          else sst.avail, ?_⟩
  simp [updateSeatStatus, hs]

/-- C6 counterexample: confirming a Reserved, unexpired standing ticket with
`expiresAt = 1000` succeeds, but the stored ticket keeps `expiresAt = 1000`
— the rueidis `ConfirmTicket` is a bare `UpdateStatus("confirmed")` and does
not clear the expiry, while the claim says `expiresAt` is cleared. -/
theorem confirmTicket_expiresAt_counterexample :
    confirmTicket
        (⟨[⟨1, 3, none, 9, 5000, TicketStatus.reserved, some 1000⟩],
          ⟨[], []⟩, some 5⟩ : TicketingState) 1 50
      = (Except.ok (),
         ⟨[⟨1, 3, none, 9, 5000, TicketStatus.confirmed, some 1000⟩],
          ⟨[], []⟩, some 5⟩)
    ∧ some (1000 : Nat) ≠ (none : Option Nat) := by
  refine ⟨rfl, by decide⟩

/-- C6 (amended): `confirm(ticketId)` requires the ticket to be Reserved and
not expired, failing with `TicketNotReserved` / `TicketExpired` and leaving
all state unchanged; on success it sets the status to Confirmed but leaves
`expiresAt` as it was (it is not cleared), marks the seat Sold for seated
tickets, and does not change the event's availableTickets counter. -/
theorem confirmTicket_amended (st : TicketingState) (tid now : Nat) (t : Ticket)
    (hfind : findTicket st.tickets tid = some t) :
    (t.status ≠ TicketStatus.reserved →
        confirmTicket st tid now = (Except.error ConfirmErr.ticketNotReserved, st))
    ∧ (t.status = TicketStatus.reserved → ticketIsExpired t now = true →
        confirmTicket st tid now = (Except.error ConfirmErr.ticketExpired, st))
    ∧ (t.status = TicketStatus.reserved → ticketIsExpired t now = false →
        ∃ st2, confirmTicket st tid now = (Except.ok (), st2)
          ∧ findTicket st2.tickets tid = some { t with status := TicketStatus.confirmed }
          ∧ st2.counter = st.counter
          ∧ (t.seatId = none → st2.seatSt = st.seatSt)
          ∧ (∀ sid s, t.seatId = some sid →
              findSeat st.seatSt.seats sid = some s →
              findSeat st2.seatSt.seats sid
                = some { s with status := SeatStatus.sold })) := by
  have hid : t.id = tid := findBy_key Ticket.id st.tickets tid t hfind
  refine ⟨fun hns => by simp [confirmTicket, hfind, hns],
          fun hs hexp => by simp [confirmTicket, hfind, hs, hexp], ?_⟩
  intro hs hexp
  have hupd : updateTicketStatus st.tickets tid TicketStatus.confirmed
      = Except.ok (setTicket st.tickets { t with status := TicketStatus.confirmed }) := by
    simp [updateTicketStatus, hfind]
  have hticket2 : findTicket
      (setTicket st.tickets { t with status := TicketStatus.confirmed }) tid
      = some { t with status := TicketStatus.confirmed } :=
    findBy_set_found Ticket.id st.tickets tid t _ hfind hid
  refine ⟨(confirmTicket st tid now).2, ?_, ?_, ?_, ?_, ?_⟩
  · have h1 : (confirmTicket st tid now).1 = Except.ok () := by
      simp [confirmTicket, hfind, hs, hexp, hupd]
    rw [← h1]
  · have htk : (confirmTicket st tid now).2.tickets
        = setTicket st.tickets { t with status := TicketStatus.confirmed } := by
      simp [confirmTicket, hfind, hs, hexp, hupd]
    rw [htk]
    exact hticket2
  · simp [confirmTicket, hfind, hs, hexp, hupd]
  · intro hn
    simp [confirmTicket, hfind, hs, hexp, hupd, hn]
  · intro sid s hsid hfs
    obtain ⟨av, hup2⟩ := updateSeatStatus_of_found st.seatSt sid SeatStatus.sold s hfs
    have hseats : (confirmTicket st tid now).2.seatSt.seats
        = setSeat st.seatSt.seats { s with status := SeatStatus.sold } := by
      simp [confirmTicket, hfind, hs, hexp, hupd, hsid, hup2]
    rw [hseats]
    exact findBy_set_found Seat.id st.seatSt.seats sid s _ hfs
      (findBy_key Seat.id st.seatSt.seats sid s hfs)

/-- Witness for C6: confirming a concrete Reserved seated ticket marks the
seat Sold, keeps the counter, and stores the Confirmed ticket. -/
theorem confirmTicket_amended_witness :
    ∃ st2 : TicketingState,
      confirmTicket
          (⟨[⟨1, 3, some 7, 9, 100, TicketStatus.reserved, some 1000⟩],
            ⟨[⟨7, 3, 100, SeatStatus.reserved⟩], []⟩, some 4⟩ : TicketingState) 1 50
        = (Except.ok (), st2)
      ∧ findTicket st2.tickets 1
          = some ⟨1, 3, some 7, 9, 100, TicketStatus.confirmed, some 1000⟩
      ∧ st2.counter = some 4
      ∧ findSeat st2.seatSt.seats 7 = some ⟨7, 3, 100, SeatStatus.sold⟩ := by
  obtain ⟨st2, h1, h2, h3, _, h5⟩ :=
    ((confirmTicket_amended
        (⟨[⟨1, 3, some 7, 9, 100, TicketStatus.reserved, some 1000⟩],
          ⟨[⟨7, 3, 100, SeatStatus.reserved⟩], []⟩, some 4⟩ : TicketingState) 1 50
        ⟨1, 3, some 7, 9, 100, TicketStatus.reserved, some 1000⟩ rfl).2.2
      rfl rfl)
  exact ⟨st2, h1, h2, h3, h5 7 ⟨7, 3, 100, SeatStatus.reserved⟩ rfl rfl⟩

/-- C7 counterexample: cancelling a Confirmed seated ticket whose seat is
Sold leaves the seat Sold — `ReleaseSeats` rejects non-Reserved seats with
its `seat_not_reserved` outcome and the service ignores the error — while
the counter is still incremented; the claim says the seat transitions
Sold → Available. -/
theorem cancelTicket_sold_seat_counterexample :
    cancelTicket
        (⟨[⟨1, 3, some 7, 9, 100, TicketStatus.confirmed, none⟩],
          ⟨[⟨7, 3, 100, SeatStatus.sold⟩], []⟩, some 0⟩ : TicketingState) 1
      = (Except.ok (),
         ⟨[⟨1, 3, some 7, 9, 100, TicketStatus.cancelled, none⟩],
          ⟨[⟨7, 3, 100, SeatStatus.sold⟩], []⟩, some 1⟩)
    ∧ SeatStatus.sold ≠ SeatStatus.available := by
  refine ⟨rfl, by decide⟩

/-- C7 (amended): `cancel(ticketId)` on a Confirmed seated ticket whose seat
is Sold marks the ticket Cancelled and increments the event counter by 1,
but the seat release fails inside `ReleaseSeats` (which accepts only
Reserved seats; it is not extended to accept Sold), the failure is only
logged, and the seat remains Sold with the whole seat store unchanged. -/
theorem cancelTicket_amended (st : TicketingState) (tid sid : Nat) (t : Ticket) (s : Seat)
    (hfind : findTicket st.tickets tid = some t)
    (hconf : t.status = TicketStatus.confirmed)
    (hseat : t.seatId = some sid)
    (hs : findSeat st.seatSt.seats sid = some s)
    (hsold : s.status = SeatStatus.sold) :
    cancelTicket st tid
      = (Except.ok (),
         { tickets := setTicket st.tickets { t with status := TicketStatus.cancelled },
           seatSt := st.seatSt,
           counter := (incrementLua st.counter 1).2 })
    ∧ findTicket (cancelTicket st tid).2.tickets tid
        = some { t with status := TicketStatus.cancelled }
    ∧ (cancelTicket st tid).2.seatSt = st.seatSt
    ∧ findSeat (cancelTicket st tid).2.seatSt.seats sid = some s
    ∧ (∀ c, st.counter = some c → (cancelTicket st tid).2.counter = some (c + 1)) := by
  have hid : t.id = tid := findBy_key Ticket.id st.tickets tid t hfind
  have hnc : ¬ t.status = TicketStatus.cancelled := by
    rw [hconf]
    decide
  have hupd : updateTicketStatus st.tickets tid TicketStatus.cancelled
      = Except.ok (setTicket st.tickets { t with status := TicketStatus.cancelled }) := by
    simp [updateTicketStatus, hfind]
  have hval : releaseValidate st.seatSt.seats [sid]
      = Except.error ReleaseErr.seatNotReserved := by
    simp [releaseValidate, hs, hsold]
  have hrel : releaseSeats st.seatSt [sid]
      = (Except.error ReleaseErr.seatNotReserved, st.seatSt) := by
    simp [releaseSeats, hval]
  have hmain : cancelTicket st tid
      = (Except.ok (),
         { tickets := setTicket st.tickets { t with status := TicketStatus.cancelled },
           seatSt := st.seatSt,
           counter := (incrementLua st.counter 1).2 }) := by
    simp [cancelTicket, hfind, hnc, hupd, hseat, hrel]
  refine ⟨hmain, ?_, ?_, ?_, ?_⟩
  · rw [hmain]
    exact findBy_set_found Ticket.id st.tickets tid t _ hfind hid
  · rw [hmain]
  · rw [hmain]
    exact hs
  · intro c hc
    rw [hmain]
    simp [incrementLua, hc]

/-- Witness for C7: the concrete Sold-seat cancellation through
`cancelTicket_amended`. -/
theorem cancelTicket_amended_witness :
    cancelTicket
        (⟨[⟨2, 3, some 8, 9, 100, TicketStatus.confirmed, none⟩],
          ⟨[⟨8, 3, 100, SeatStatus.sold⟩], []⟩, some 2⟩ : TicketingState) 2
      = (Except.ok (),
         { tickets := setTicket [⟨2, 3, some 8, 9, 100, TicketStatus.confirmed, none⟩]
             ⟨2, 3, some 8, 9, 100, TicketStatus.cancelled, none⟩,
           seatSt := ⟨[⟨8, 3, 100, SeatStatus.sold⟩], []⟩,
           counter := (incrementLua (some 2) 1).2 })
    ∧ findSeat (cancelTicket
        (⟨[⟨2, 3, some 8, 9, 100, TicketStatus.confirmed, none⟩],
          ⟨[⟨8, 3, 100, SeatStatus.sold⟩], []⟩, some 2⟩ : TicketingState) 2).2.seatSt.seats 8
        = some ⟨8, 3, 100, SeatStatus.sold⟩ := by
  obtain ⟨h1, _, _, h4, _⟩ := cancelTicket_amended
    (⟨[⟨2, 3, some 8, 9, 100, TicketStatus.confirmed, none⟩],
      ⟨[⟨8, 3, 100, SeatStatus.sold⟩], []⟩, some 2⟩ : TicketingState) 2 8
    ⟨2, 3, some 8, 9, 100, TicketStatus.confirmed, none⟩
    ⟨8, 3, 100, SeatStatus.sold⟩ rfl rfl rfl rfl rfl
  exact ⟨h1, h4⟩

/-- C8: after a successful `cancel(t)`, a second `cancel(t)` fails with the
already-cancelled error and returns the state untouched — the inventory
(counter and seat statuses) is exactly the state the first call produced. -/
theorem cancelTicket_second_call (st st2 : TicketingState) (tid : Nat)
    (h : cancelTicket st tid = (Except.ok (), st2)) :
    cancelTicket st2 tid = (Except.error CancelErr.alreadyCancelled, st2) := by
  rcases hf : findTicket st.tickets tid with _ | t
  · simp [cancelTicket, hf] at h
  · by_cases hc : t.status = TicketStatus.cancelled
    · simp [cancelTicket, hf, hc] at h
    · have hid : t.id = tid := findBy_key Ticket.id st.tickets tid t hf
      have hupd : updateTicketStatus st.tickets tid TicketStatus.cancelled
          = Except.ok (setTicket st.tickets { t with status := TicketStatus.cancelled }) := by
        simp [updateTicketStatus, hf]
      have hmain := h
      simp only [cancelTicket, hf, if_neg hc, hupd] at hmain
      rw [Prod.mk.injEq] at hmain
      obtain ⟨-, hst2⟩ := hmain
      have hfound2 : findTicket st2.tickets tid
          = some { t with status := TicketStatus.cancelled } := by
        rw [← hst2]
        exact findBy_set_found Ticket.id st.tickets tid t _ hf hid
      simp [cancelTicket, hfound2]

/-- Witness for C8: a concrete double cancellation of a standing ticket. -/
theorem cancelTicket_second_call_witness :
    cancelTicket
        (⟨[⟨1, 3, none, 9, 5000, TicketStatus.cancelled, some 900⟩], ⟨[], []⟩, some 6⟩ :
          TicketingState) 1
      = (Except.error CancelErr.alreadyCancelled,
         ⟨[⟨1, 3, none, 9, 5000, TicketStatus.cancelled, some 900⟩], ⟨[], []⟩, some 6⟩) :=
  cancelTicket_second_call
    ⟨[⟨1, 3, none, 9, 5000, TicketStatus.reserved, some 900⟩], ⟨[], []⟩, some 5⟩
    ⟨[⟨1, 3, none, 9, 5000, TicketStatus.cancelled, some 900⟩], ⟨[], []⟩, some 6⟩
    1 rfl

/-- C10: every successful standing purchase creates a ticket whose Price is
exactly 5000 cents, for every event, user, counter state, ticket id and
clock value — the price is a hard-coded literal in
`purchaseStandingTicket`. -/
theorem purchaseStanding_price (event : Event) (userId : Nat) (counter : Option Int)
    (newTicketId now : Nat) (t : Ticket) (c2 : Option Int)
    (h : purchaseStandingTicket event userId counter newTicketId now = (Except.ok t, c2)) :
    t.price = 5000 := by
  by_cases ha : event.availableTickets ≤ 0
  · simp [purchaseStandingTicket, ha] at h
  · rcases hd : decrementAvailableTickets counter 1 with ⟨r, c3⟩
    rcases r with _ | _ | n
    · simp [purchaseStandingTicket, ha, hd] at h
    · simp [purchaseStandingTicket, ha, hd] at h
    · simp only [purchaseStandingTicket, if_neg ha, hd] at h
      rw [Prod.mk.injEq] at h
      obtain ⟨ht, -⟩ := h
      have ht2 := Except.ok.inj ht
      rw [← ht2]

/-- Witness for C10: a concrete successful standing purchase priced at
5000. -/
theorem purchaseStanding_price_witness :
    (⟨1, 3, none, 9, 5000, TicketStatus.reserved, some 900⟩ : Ticket).price = 5000 :=
  purchaseStanding_price ⟨3, EventStatus.active, 2, 2, false⟩ 9 (some 2) 1 0
    ⟨1, 3, none, 9, 5000, TicketStatus.reserved, some 900⟩ (some 1) rfl

end Ticketing
